import Mathlib

/-!
Shallow embedding of the sqld request-to-SQL compiler and execution pipeline
(repository mmaelzer/sqld), together with proofs about the claims of its
specification.

The embedding follows the newest revision of the source:
`src/unnamed/part_002` (second embedded file, the one matched by
`src/sqld_test.go` and `src/drivers/`), and, for the batch-insert
coordinator that only exists in the earlier revision, `src/unnamed/part_001`.

Modelling conventions:
* Go `map` iteration order is non-deterministic; maps handed to the builders
  (`url.Values`, JSON objects) are modelled as association lists and the list
  order stands for one iteration order.  Claims proved below do not depend on
  a particular order unless the concrete test scenario fixes a single key.
* Database calls (`db.Query`, `db.Exec`, `rows.Scan`, ...) are external
  effects; their outcomes are passed to the embedded functions as explicit
  `Except`/oracle arguments, exactly at the points where the Go code receives
  them.
* `val[0]` on a `url.Values` entry is modelled by `headD ""`; a parsed query
  string never maps a key to an empty value list, so the default is never hit
  on inputs that correspond to real requests.
* Go `uint64(n)` on a (64-bit) `int` is `n % 2^64` on `Int`.
-/

deriving instance DecidableEq for Except

namespace Sqld

/-- JSON-representable scalar values, as produced by `encoding/json` for the
request bodies that sqld handles (Go `interface{}` holding a flat value). -/
inductive Scalar where
  | str (s : String)
  | int (n : Int)
  | boolean (b : Bool)
  | null
deriving DecidableEq, Repr

/-- Values scanned from a database row (`database/sql` gives `interface{}`;
a driver may return a raw byte sequence, modelled with its text content). -/
inductive DBVal where
  | bytes (s : String)
  | str (s : String)
  | int (n : Int)
  | boolean (b : Bool)
  | null
deriving DecidableEq, Repr

/-- Whether a scanned value is a raw byte sequence (Go `val.([]byte)` test). -/
def DBVal.isBytes : DBVal → Bool
  | .bytes _ => true
  | _ => false

/-- `SqldError` from the source: an HTTP status code plus a message. -/
structure SqldError where
  code : Nat
  msg : String
deriving DecidableEq, Repr

/-- `NewError` factory: a `nil` error becomes the empty message. -/
def NewError (err : Option String) (code : Nat) : SqldError :=
  { code := code, msg := err.getD "" }

/-- `BadRequest` constructor (HTTP 400). -/
def BadRequest (err : Option String) : SqldError := NewError err 400

/-- `NotFound` constructor (HTTP 404). -/
def NotFound (err : Option String) : SqldError := NewError err 404

/-- `InternalError` constructor (HTTP 500). -/
def InternalError (err : Option String) : SqldError := NewError err 500

/-! ## String helpers (embeddings of the Go string operations used) -/

/-- Character of a decimal digit. -/
def digitChar : Nat → Char
  | 0 => '0' | 1 => '1' | 2 => '2' | 3 => '3' | 4 => '4'
  | 5 => '5' | 6 => '6' | 7 => '7' | 8 => '8' | 9 => '9'
  | _ => '0'

/-- Decimal digit characters of `n`, most significant first (fuel-driven so
that it reduces definitionally; `n+1` fuel always suffices). -/
def decCharsAux : Nat → Nat → List Char
  | 0, _ => []
  | fuel + 1, n =>
    if n < 10 then [digitChar n]
    else decCharsAux fuel (n / 10) ++ [digitChar (n % 10)]

/-- Decimal rendering of a natural number (Go `fmt.Sprintf("%d", u)` on a
`uint64`). -/
def decStr (n : Nat) : String := String.mk (decCharsAux (n + 1) n)

/-- Split a character list at a separator character (Go `strings.Split`). -/
def splitCharsOn (c : Char) : List Char → List Char → List String
  | [], acc => [String.mk acc.reverse]
  | x :: rest, acc =>
    if x = c then String.mk acc.reverse :: splitCharsOn c rest []
    else splitCharsOn c rest (x :: acc)

/-- Go `strings.Split(s, "/")` for a single-character separator. -/
def splitOnChar (c : Char) (s : String) : List String := splitCharsOn c s.data []

/-- Go `strings.TrimPrefix(s, pre)`. -/
def trimPrefixStr (s pre : String) : String :=
  if pre.data.isPrefixOf s.data then String.mk (s.data.drop pre.data.length) else s

/-- Join strings with `", "` (squirrel joining SET clauses / columns). -/
def joinComma : List String → String
  | [] => ""
  | [s] => s
  | s :: rest => s ++ ", " ++ joinComma rest

/-- Join strings with `" AND "` (squirrel conjoining WHERE parts). -/
def joinAnd : List String → String
  | [] => ""
  | [s] => s
  | s :: rest => s ++ " AND " ++ joinAnd rest

/-- squirrel `Placeholders(n)`: `n` question marks joined with commas. -/
def placeholders : Nat → String
  | 0 => ""
  | 1 => "?"
  | n + 2 => "?," ++ placeholders (n + 1)

/-- Number of `?` placeholders occurring in a piece of SQL text. -/
def countQ (s : String) : Nat := s.data.count '?'

/-- Naive substring test on character lists. -/
def listHasSub (pat : List Char) : List Char → Bool
  | [] => pat.isEmpty
  | c :: rest => pat.isPrefixOf (c :: rest) || listHasSub pat rest

/-- Whether `pat` occurs as a substring of `s`. -/
def containsSub (s pat : String) : Bool := listHasSub pat.data s.data

/-- The `int64` range check of `strconv.ParseInt`: out-of-range input is an
error (`ErrRange`), which `buildSelectQuery` treats like any parse error. -/
def int64Check (v : Int) : Option Int :=
  if -(2 ^ 63) ≤ v ∧ v < 2 ^ 63 then some v else none

/-- Go `strconv.Atoi`: optional sign, nonempty digit string, 64-bit range. -/
def atoi (s : String) : Option Int :=
  let signDigits : Int × List Char :=
    match s.data with
    | '+' :: rest => (1, rest)
    | '-' :: rest => (-1, rest)
    | cs => (1, cs)
  let ds := signDigits.2
  if ds.isEmpty then none
  else if ds.all (·.isDigit) then
    int64Check (signDigits.1 * (ds.foldl (fun a c => a * 10 + (c.toNat - 48)) 0 : Nat))
  else none

/-- Go `uint64(n)` conversion of a 64-bit signed integer. -/
def toUInt64Nat (n : Int) : Nat := (n % (18446744073709551616 : Int)).toNat

/-! ## squirrel query-builder model

The builders keep a list of WHERE predicates; `squirrel.Eq` renders a plain
value as `k = ?` and a slice value as `k IN (?,...)` (empty slice: `(1=0)`). -/

/-- A WHERE predicate as recorded by the builders. -/
inductive WherePred where
  /-- `squirrel.Eq{k: v}` with a plain (string) value: renders `k = ?`. -/
  | eqStr (k v : String)
  /-- `squirrel.Eq{k: vs}` with a `[]string` value: renders the IN form. -/
  | eqList (k : String) (vs : List String)
deriving DecidableEq, Repr

/-- SQL text of a WHERE predicate (squirrel `Eq.ToSql`). -/
def predSql : WherePred → String
  | .eqStr k _ => k ++ " = ?"
  | .eqList _ [] => "(1=0)"
  | .eqList k vs => k ++ " IN (" ++ placeholders vs.length ++ ")"

/-- Positional arguments contributed by a WHERE predicate. -/
def predArgs : WherePred → List Scalar
  | .eqStr _ v => [.str v]
  | .eqList _ vs => vs.map .str

/-- WHERE fragment for a predicate list (empty list: no fragment). -/
def whereSql (ws : List WherePred) : String :=
  if ws.isEmpty then "" else " WHERE " ++ joinAnd (ws.map predSql)

/-- Arguments of a predicate list, in predicate order. -/
def whereArgsOf (ws : List WherePred) : List Scalar := (ws.map predArgs).flatten

/-- ORDER BY fragment (squirrel `OrderBy`; tokens joined with `", "`). -/
def orderSql (os : List String) : String :=
  if os.isEmpty then "" else " ORDER BY " ++ joinComma os

/-- LIMIT fragment; squirrel stores the formatted `uint64` when `Limit` is
called, and emits it whenever set (including `LIMIT 0`). -/
def limitSql : Option Nat → String
  | none => ""
  | some n => " LIMIT " ++ decStr n

/-- OFFSET fragment. -/
def offsetSql : Option Nat → String
  | none => ""
  | some n => " OFFSET " ++ decStr n

/-- Builder state of `sq.Select("*").From(table)` plus chained calls. -/
structure SelectState where
  table : String
  wheres : List WherePred
  orderBys : List String
  limit : Option Nat
  offset : Option Nat
deriving DecidableEq, Repr

/-- `SelectBuilder.ToSql`: SQL text and positional arguments. -/
def selectToSql (st : SelectState) : String × List Scalar :=
  ("SELECT *" ++ (if st.table = "" then "" else " FROM " ++ st.table) ++
      whereSql st.wheres ++ orderSql st.orderBys ++ limitSql st.limit ++ offsetSql st.offset,
    whereArgsOf st.wheres)

/-- Builder state of `sq.Update("").Table(table)` plus chained calls. -/
structure UpdateState where
  table : String
  sets : List (String × Scalar)
  wheres : List WherePred
  limit : Option Nat
deriving DecidableEq, Repr

/-- SET fragment: `k = ?` clauses joined with `", "`. -/
def setSql (sets : List (String × Scalar)) : String :=
  joinComma (sets.map (fun kv => kv.1 ++ " = ?"))

/-- `UpdateBuilder.ToSql`: fails on an empty table or an empty SET list;
arguments are the SET values followed by the WHERE arguments. -/
def updateToSql (st : UpdateState) : Except String (String × List Scalar) :=
  if st.table = "" then .error "update statements must specify a table"
  else if st.sets.isEmpty then .error "update statements must have at least one Set clause"
  else .ok ("UPDATE " ++ st.table ++ " SET " ++ setSql st.sets ++
      whereSql st.wheres ++ limitSql st.limit,
    st.sets.map (·.2) ++ whereArgsOf st.wheres)

/-- Builder state of `sq.Delete("").From(table)` plus chained calls. -/
structure DeleteState where
  table : String
  wheres : List WherePred
  limit : Option Nat
deriving DecidableEq, Repr

/-- `DeleteBuilder.ToSql`: fails on an empty table. -/
def deleteToSql (st : DeleteState) : Except String (String × List Scalar) :=
  if st.table = "" then .error "delete statements must specify a From table"
  else .ok ("DELETE FROM " ++ st.table ++ whereSql st.wheres ++ limitSql st.limit,
    whereArgsOf st.wheres)

/-! ## Request parsing and the three query compilers
(src/unnamed/part_002, second file, lines 579-667) -/

/-- Go `val[0]` on a `url.Values` entry (entries are never empty in practice). -/
def first (vs : List String) : String := vs.headD ""

/-- `parseRequest`: strip the url prefix, split on `/`; first segment is the
table, second (when present) the row id. -/
def parseRequest (urlPrefix path : String) : String × String :=
  let paths := splitOnChar '/' (trimPrefixStr path urlPrefix)
  (paths.headD "", if paths.length > 1 then paths.getD 1 "" else "")

/-- The `for key, val := range args` loop body of `buildSelectQuery`:
`__limit__` / `__offset__` parse-or-ignore, `__order_by__` appends order
tokens, anything else becomes an `Eq` filter. -/
def applySelectParams : SelectState → List (String × List String) → SelectState
  | st, [] => st
  | st, (key, val) :: rest =>
    if key = "__limit__" then
      applySelectParams
        { st with limit := match atoi (first val) with
            | some n => some (toUInt64Nat n)
            | none => st.limit } rest
    else if key = "__offset__" then
      applySelectParams
        { st with offset := match atoi (first val) with
            | some n => some (toUInt64Nat n)
            | none => st.offset } rest
    else if key = "__order_by__" then
      applySelectParams { st with orderBys := st.orderBys ++ val } rest
    else
      applySelectParams { st with wheres := st.wheres ++ [.eqList key val] } rest

/-- Select builder state after `parseRequest` and the parameter loop. -/
def selectStateOf (urlPrefix path : String) (params : List (String × List String)) :
    SelectState :=
  let tid := parseRequest urlPrefix path
  applySelectParams
    { table := tid.1,
      wheres := if tid.2 ≠ "" then [.eqStr "id" tid.2] else [],
      orderBys := [], limit := none, offset := none } params

/-- `buildSelectQuery` (the `error` component of `ToSql` is always `nil` for
a select with columns, hence always `.ok`). -/
def buildSelectQuery (urlPrefix path : String) (params : List (String × List String)) :
    Except String (String × List Scalar) :=
  .ok (selectToSql (selectStateOf urlPrefix path params))

/-- The `for key, val := range args` loop of `buildUpdateQuery`: only
`__limit__` is reserved there. -/
def applyUpdateParams : UpdateState → List (String × List String) → UpdateState
  | st, [] => st
  | st, (key, val) :: rest =>
    if key = "__limit__" then
      applyUpdateParams
        { st with limit := match atoi (first val) with
            | some n => some (toUInt64Nat n)
            | none => st.limit } rest
    else
      applyUpdateParams { st with wheres := st.wheres ++ [.eqList key val] } rest

/-- Update builder state: SET clauses from the JSON body (one `SetMap` call
per key, in iteration order), then the id filter, then the parameter loop. -/
def updateStateOf (urlPrefix path : String) (values : List (String × Scalar))
    (params : List (String × List String)) : UpdateState :=
  let tid := parseRequest urlPrefix path
  applyUpdateParams
    { table := tid.1,
      sets := values,
      wheres := if tid.2 ≠ "" then [.eqStr "id" tid.2] else [],
      limit := none } params

/-- `buildUpdateQuery`. -/
def buildUpdateQuery (urlPrefix path : String) (values : List (String × Scalar))
    (params : List (String × List String)) : Except String (String × List Scalar) :=
  updateToSql (updateStateOf urlPrefix path values params)

/-- The `for key, val := range args` loop of `buildDeleteQuery`. -/
def applyDeleteParams : DeleteState → List (String × List String) → DeleteState
  | st, [] => st
  | st, (key, val) :: rest =>
    if key = "__limit__" then
      applyDeleteParams
        { st with limit := match atoi (first val) with
            | some n => some (toUInt64Nat n)
            | none => st.limit } rest
    else
      applyDeleteParams { st with wheres := st.wheres ++ [.eqList key val] } rest

/-- Delete builder state. -/
def deleteStateOf (urlPrefix path : String) (params : List (String × List String)) :
    DeleteState :=
  let tid := parseRequest urlPrefix path
  applyDeleteParams
    { table := tid.1,
      wheres := if tid.2 ≠ "" then [.eqStr "id" tid.2] else [],
      limit := none } params

/-- `buildDeleteQuery`. -/
def buildDeleteQuery (urlPrefix path : String) (params : List (String × List String)) :
    Except String (String × List Scalar) :=
  deleteToSql (deleteStateOf urlPrefix path params)

example : buildSelectQuery "/" "/user" [] = .ok ("SELECT * FROM user", []) := by decide

example : buildSelectQuery "/" "/user" [("name", ["jim"])] =
    .ok ("SELECT * FROM user WHERE name IN (?)", [.str "jim"]) := by decide

example : buildSelectQuery "/" "/user" [("__limit__", ["100"]), ("__offset__", ["200"])] =
    .ok ("SELECT * FROM user LIMIT 100 OFFSET 200", []) := by decide

example : buildSelectQuery "/" "/user/10" [] =
    .ok ("SELECT * FROM user WHERE id = ?", [.str "10"]) := by decide

example : buildSelectQuery "/" "/user" [("__order_by__", ["id"])] =
    .ok ("SELECT * FROM user ORDER BY id", []) := by decide

example : buildUpdateQuery "/" "/user/8" [("name", .str "jack")] [] =
    .ok ("UPDATE user SET name = ? WHERE id = ?", [.str "jack", .str "8"]) := by decide

example : buildUpdateQuery "/" "/user" [("age", .int 66)] [("name", ["jill"]), ("__limit__", ["5"])] =
    .ok ("UPDATE user SET age = ? WHERE name IN (?) LIMIT 5", [.int 66, .str "jill"]) := by decide

example : buildDeleteQuery "/" "/user/8" [] =
    .ok ("DELETE FROM user WHERE id = ?", [.str "8"]) := by decide

example : buildDeleteQuery "/" "/user" [("name", ["jill"]), ("__limit__", ["5"])] =
    .ok ("DELETE FROM user WHERE name IN (?) LIMIT 5", [.str "jill"]) := by decide

/-! ## Statement executor and row marshaler
(src/unnamed/part_002, second file, lines 669-729 and 822-840) -/

/-- A marshalled row: column name to JSON-safe value (Go `rowData` map,
represented as an association list; insertion overwrites an existing key). -/
abbrev Row := List (String × DBVal)

/-- The byte-to-string coercion applied to every scanned value: a raw byte
sequence becomes its text string, everything else passes through. -/
def marshalVal : DBVal → DBVal
  | .bytes s => .str s
  | v => v

/-- Go map insertion on the association-list representation. -/
def insertKV : Row → String → DBVal → Row
  | [], k, v => [(k, v)]
  | (k0, v0) :: rest, k, v =>
    if k0 = k then (k, v) :: rest else (k0, v0) :: insertKV rest k v

/-- Association-list lookup (Go map read). -/
def lookupKV : Row → String → Option DBVal
  | [], _ => none
  | (k0, v0) :: rest, k => if k0 = k then some v0 else lookupKV rest k

/-- Build one `rowData` from the column names and the scanned values:
zip by index, coerce each value, key it by its column name. -/
def marshalRow (cols : List String) (vals : List DBVal) : Row :=
  (cols.zip vals).foldl (fun m kv => insertKV m kv.1 (marshalVal kv.2)) []

/-- Outcome of `db.Query` as the Go code observes it: the `rows.Columns()`
result, one `rows.Scan` outcome per result row, and the final `rows.Err()`. -/
structure QueryRows where
  columns : Except String (List String)
  rows : List (Except String (List DBVal))
  finalErr : Option String
deriving DecidableEq, Repr

/-- The scan loop of `readQuery`: abort on the first scan error, otherwise
marshal every row in order. -/
def scanRows (cols : List String) : List (Except String (List DBVal)) →
    Except String (List Row)
  | [] => .ok []
  | .error e :: _ => .error e
  | .ok vals :: rest => (scanRows cols rest).map (marshalRow cols vals :: ·)

/-- `readQuery`: query error, column error, scan error and final iteration
error all propagate; otherwise the marshalled rows are returned in order. -/
def readQuery (q : Except String QueryRows) : Except String (List Row) :=
  match q with
  | .error e => .error e
  | .ok qr =>
    match qr.columns with
    | .error e => .error e
    | .ok cols =>
      match scanRows cols qr.rows with
      | .error e => .error e
      | .ok tableData =>
        match qr.finalErr with
        | some e => .error e
        | none => .ok tableData

/-- `read` (the GET handler): a compile failure is BadRequest, a `readQuery`
failure is InternalError.  `q` is the database's answer to the compiled
query. -/
def read (urlPrefix path : String) (params : List (String × List String))
    (q : Except String QueryRows) : Except SqldError (List Row) :=
  match buildSelectQuery urlPrefix path params with
  | .error e => .error (BadRequest (some e))
  | .ok _ =>
    match readQuery q with
    | .error e => .error (InternalError (some e))
    | .ok tableData => .ok tableData

/-- Outcome of `db.Exec` in Go's two-value convention: `LastInsertId()` and
`RowsAffected()` each return a value and an optional error. -/
structure ExecResult where
  lastInsertIdVal : Int
  lastInsertIdErr : Option String
  rowsAffectedVal : Int
  rowsAffectedErr : Option String
deriving DecidableEq, Repr

/-- `execQuery`: exec failure and affected-row-count retrieval failure are
BadRequest; an affected count of zero is NotFound (with the `nil` error of
the successful `RowsAffected` call); otherwise success with no payload. -/
def execQuery (res : Except String ExecResult) : Except SqldError Unit :=
  match res with
  | .error e => .error (BadRequest (some e))
  | .ok r =>
    match r.rowsAffectedErr with
    | some e => .error (BadRequest (some e))
    | none => if r.rowsAffectedVal = 0 then .error (NotFound none) else .ok ()

/-- The response-status logic at the tail of `handleQuery`: no error and no
data is 204; an error reports its own code; data reports the success
status chosen by the router (200, or 201 for POST). -/
def respondStatus (hasData : Bool) (err : Option SqldError) (status : Nat) : Nat :=
  match err, hasData with
  | none, false => 204
  | some e, _ => e.code
  | none, true => status

/-! ## Raw query passthrough and root-path dispatch
(src/unnamed/part_002, second file, lines 842-875 and 897-902) -/

/-- `RawQuery`: the request body of a raw sqld request. -/
structure RawQuery where
  ReadQuery : String
  WriteQuery : String
deriving DecidableEq, Repr

/-- Payload of a successful raw request. -/
inductive RawResult where
  | rows (rs : List Row)
  | writeInfo (lastInsertId rowsAffected : Int)
deriving DecidableEq, Repr

/-- `raw`: `body` is the read-and-unmarshal outcome of the request body;
`q` the database's answer to the read statement; `execRes` the database's
answer to the write statement.  A nonempty read statement wins; write
errors from `LastInsertId`/`RowsAffected` are deliberately discarded. -/
def raw (body : Except String RawQuery) (q : Except String QueryRows)
    (execRes : Except String ExecResult) : Except SqldError RawResult :=
  match body with
  | .error e => .error (BadRequest (some e))
  | .ok query =>
    if query.ReadQuery ≠ "" then
      match readQuery q with
      | .error e => .error (BadRequest (some e))
      | .ok tableData => .ok (.rows tableData)
    else if query.WriteQuery ≠ "" then
      match execRes with
      | .error e => .error (BadRequest (some e))
      | .ok res => .ok (.writeInfo res.lastInsertIdVal res.rowsAffectedVal)
    else .error (BadRequest none)

/-- The root-path branch of `handleQuery` (`r.URL.Path == "/"`): raw mode
must be enabled and the method must be POST, otherwise BadRequest. -/
def rootDispatch (allowRaw : Bool) (method : String)
    (rawOutcome : Except SqldError RawResult) : Except SqldError RawResult :=
  if allowRaw && method == "POST" then rawOutcome else .error (BadRequest none)

/-! ## Create handlers and the batch-insert coordinator
(`create` from src/unnamed/part_002 lines 762-787; `createMany` and the
array-handling `create` from src/unnamed/part_001 lines 274-305, 338-378) -/

/-- A decoded JSON request body (flattened: object values are scalars,
which is all the repository's own tests exercise). -/
inductive JSON where
  | obj (kvs : List (String × Scalar))
  | arr (xs : List JSON)
  | scalar (s : Scalar)

/-- Whether a decoded value is a JSON object (Go
`data.(map[string]interface{})` success). -/
def JSON.isObj : JSON → Bool
  | .obj _ => true
  | _ => false

/-- A created item as returned by `createSingle`: the input map with the
generated identifier merged under key `id`. -/
abbrev Item := List (String × Scalar)

/-- `createMany` (src/unnamed/part_001 lines 276-305): one goroutine per list
element.  Each goroutine asserts `list[i].(map[string]interface{})` without a
check: a non-object element panics, modelled as `none`.  `res i` is the
`createSingle` outcome for item `i` (database-dependent), `order` is the
completion order of the goroutines; successes and errors are appended to the
two accumulators in completion order. -/
def createMany (list : List JSON) (res : Nat → Except String Item)
    (order : List Nat) : Option (List Item × List String) :=
  if list.all JSON.isObj then
    some (order.foldl (fun acc i =>
      match res i with
      | .ok item => (acc.1 ++ [item], acc.2)
      | .error e => (acc.1, acc.2 ++ [e])) ([], []))
  else none

/-- Successful items of a completion order (specification-side view of the
`items` accumulator). -/
def okResults (res : Nat → Except String Item) (order : List Nat) : List Item :=
  order.filterMap (fun i => (res i).toOption)

/-- Per-item errors of a completion order (specification-side view of the
`errors` accumulator). -/
def errResults (res : Nat → Except String Item) (order : List Nat) : List String :=
  order.filterMap (fun i =>
    match res i with
    | .error e => some e
    | .ok _ => none)

/-- Response payload of a create handler. -/
inductive CreatePayload where
  | rows (rs : List Item)
  | withErrors (errs : List String) (objs : List Item)
  | single (r : Item)
deriving DecidableEq, Repr

/-- `create` of the earlier revision (src/unnamed/part_001 lines 339-378):
an array body goes through `createMany` and yields either the plain array of
created rows or an `errors`/`objects` object; an object body goes through
`createSingle` (outcome `singleRes`); anything else is BadRequest.  `none`
is the panic of `createMany` on a non-object element. -/
def createV1 (parsed : Except String JSON) (res : Nat → Except String Item)
    (order : List Nat) (singleRes : Except String Item) :
    Option (Except SqldError CreatePayload) :=
  match parsed with
  | .error e => some (.error (BadRequest (some e)))
  | .ok data =>
    match data with
    | .arr list =>
      match createMany list res order with
      | none => none
      | some (manySaved, errs) =>
        if errs.length = 0 then some (.ok (.rows manySaved))
        else some (.ok (.withErrors errs manySaved))
    | .obj _ =>
      match singleRes with
      | .error e => some (.error (InternalError (some e)))
      | .ok saved => some (.ok (.single saved))
    | .scalar _ => some (.error (BadRequest none))

/-- `create` of the newest revision (src/unnamed/part_002 lines 763-787):
only an object body is accepted; an array (or scalar) body falls through to
`BadRequest(nil)`.  `parsed` is the read-and-unmarshal outcome of the body,
`singleRes` the `createSingle` outcome. -/
def create (parsed : Except String JSON) (singleRes : Except String Item) :
    Except SqldError Item :=
  match parsed with
  | .error e => .error (BadRequest (some e))
  | .ok data =>
    match data with
    | .obj _ =>
      match singleRes with
      | .error e => .error (InternalError (some e))
      | .ok saved => .ok saved
    | _ => .error (BadRequest none)

/-! ## Helper lemmas -/

theorem digitChar_ne_q (d : Nat) : digitChar d ≠ '?' := by
  unfold digitChar
  split <;> decide

theorem decCharsAux_mem (fuel : Nat) :
    ∀ n c, c ∈ decCharsAux fuel n → ∃ d, c = digitChar d := by
  induction fuel with
  | zero => intro n c hc; simp [decCharsAux] at hc
  | succ fuel ih =>
    intro n c hc
    rw [decCharsAux] at hc
    by_cases h : n < 10
    · rw [if_pos h] at hc
      simp at hc
      exact ⟨n, hc⟩
    · rw [if_neg h] at hc
      rcases List.mem_append.1 hc with h1 | h1
      · exact ih _ _ h1
      · simp at h1
        exact ⟨n % 10, h1⟩

theorem countQ_decStr (n : Nat) : countQ (decStr n) = 0 := by
  rw [countQ, decStr]
  refine List.count_eq_zero.2 ?_
  intro hc
  obtain ⟨d, hd⟩ := decCharsAux_mem _ _ _ hc
  exact digitChar_ne_q d hd.symm

theorem countQ_q_comma : countQ "?," = 1 := by decide

theorem countQ_limit_word : countQ " LIMIT " = 0 := by decide

theorem countQ_offset_word : countQ " OFFSET " = 0 := by decide

theorem countQ_append (a b : String) : countQ (a ++ b) = countQ a + countQ b := by
  rw [countQ, countQ, countQ, String.data_append, List.count_append]

theorem countQ_placeholders (n : Nat) : countQ (placeholders n) = n := by
  induction n with
  | zero => rfl
  | succ m ih =>
    cases m with
    | zero => rfl
    | succ k =>
      rw [placeholders, countQ_append, ih, countQ_q_comma]
      omega

theorem countQ_limitSql (o : Option Nat) : countQ (limitSql o) = 0 := by
  cases o with
  | none => rfl
  | some n => rw [limitSql, countQ_append, countQ_decStr, countQ_limit_word]

theorem countQ_offsetSql (o : Option Nat) : countQ (offsetSql o) = 0 := by
  cases o with
  | none => rfl
  | some n => rw [offsetSql, countQ_append, countQ_decStr, countQ_offset_word]

theorem countQ_joinAnd (l : List String) :
    countQ (joinAnd l) = (l.map countQ).sum := by
  induction l with
  | nil => rfl
  | cons s rest ih =>
    cases rest with
    | nil => simp [joinAnd]
    | cons t rest2 =>
      show countQ (s ++ " AND " ++ joinAnd (t :: rest2)) = _
      rw [countQ_append, countQ_append, ih]
      have h0 : countQ " AND " = 0 := by decide
      rw [h0]
      simp

theorem countQ_joinComma (l : List String) :
    countQ (joinComma l) = (l.map countQ).sum := by
  induction l with
  | nil => rfl
  | cons s rest ih =>
    cases rest with
    | nil => simp [joinComma]
    | cons t rest2 =>
      show countQ (s ++ ", " ++ joinComma (t :: rest2)) = _
      rw [countQ_append, countQ_append, ih]
      have h0 : countQ ", " = 0 := by decide
      rw [h0]
      simp

/-- The column-name key of a WHERE predicate. -/
def predKey : WherePred → String
  | .eqStr k _ => k
  | .eqList k _ => k

theorem countQ_predSql (w : WherePred) (h : countQ (predKey w) = 0) :
    countQ (predSql w) = (predArgs w).length := by
  cases w with
  | eqStr k v =>
    rw [predSql, countQ_append, predKey] at *
    rw [h]
    rfl
  | eqList k vs =>
    cases vs with
    | nil => rfl
    | cons v rest =>
      rw [predKey] at h
      show countQ (k ++ " IN (" ++ placeholders (v :: rest).length ++ ")") = _
      rw [countQ_append, countQ_append, countQ_append, h, countQ_placeholders]
      simp [predArgs, countQ]

theorem countQ_whereSql (ws : List WherePred) (h : ∀ w ∈ ws, countQ (predKey w) = 0) :
    countQ (whereSql ws) = (whereArgsOf ws).length := by
  cases ws with
  | nil => rfl
  | cons w rest =>
    rw [whereSql, if_neg (by simp)]
    rw [countQ_append, countQ_joinAnd]
    show 0 + _ = _
    rw [whereArgsOf, List.length_flatten, zero_add, List.map_map, List.map_map]
    congr 1
    refine List.map_congr_left ?_
    intro x hx
    exact countQ_predSql x (h x hx)

theorem countQ_setSql (sets : List (String × Scalar))
    (h : ∀ kv ∈ sets, countQ kv.1 = 0) : countQ (setSql sets) = sets.length := by
  rw [setSql, countQ_joinComma, List.map_map]
  have : ∀ kv ∈ sets, (countQ ∘ fun kv : String × Scalar => kv.1 ++ " = ?") kv = 1 := by
    intro kv hkv
    show countQ (kv.1 ++ " = ?") = 1
    rw [countQ_append, h kv hkv]
    rfl
  rw [List.map_congr_left this]
  simp [List.sum_replicate, List.map_const]

theorem whereArgsOf_append (a b : List WherePred) :
    whereArgsOf (a ++ b) = whereArgsOf a ++ whereArgsOf b := by
  simp [whereArgsOf]

/-! Fold lemmas for the three parameter loops. -/

theorem applySelectParams_append (ps1 ps2 : List (String × List String))
    (st : SelectState) :
    applySelectParams st (ps1 ++ ps2) =
      applySelectParams (applySelectParams st ps1) ps2 := by
  induction ps1 generalizing st with
  | nil => rfl
  | cons kv ps1 ih =>
    obtain ⟨k, v⟩ := kv
    rw [List.cons_append, applySelectParams, applySelectParams]
    split_ifs <;> apply ih

theorem applyUpdateParams_append (ps1 ps2 : List (String × List String))
    (st : UpdateState) :
    applyUpdateParams st (ps1 ++ ps2) =
      applyUpdateParams (applyUpdateParams st ps1) ps2 := by
  induction ps1 generalizing st with
  | nil => rfl
  | cons kv ps1 ih =>
    obtain ⟨k, v⟩ := kv
    rw [List.cons_append, applyUpdateParams, applyUpdateParams]
    split_ifs <;> apply ih

theorem applyDeleteParams_append (ps1 ps2 : List (String × List String))
    (st : DeleteState) :
    applyDeleteParams st (ps1 ++ ps2) =
      applyDeleteParams (applyDeleteParams st ps1) ps2 := by
  induction ps1 generalizing st with
  | nil => rfl
  | cons kv ps1 ih =>
    obtain ⟨k, v⟩ := kv
    rw [List.cons_append, applyDeleteParams, applyDeleteParams]
    split_ifs <;> apply ih

/-- The filter predicates the select parameter loop produces (everything
except the three reserved keys, in order). -/
def selectFilters (ps : List (String × List String)) : List WherePred :=
  ps.filterMap (fun kv =>
    if kv.1 = "__limit__" then none
    else if kv.1 = "__offset__" then none
    else if kv.1 = "__order_by__" then none
    else some (.eqList kv.1 kv.2))

/-- The filter predicates of the update/delete parameter loop (everything
except `__limit__`). -/
def writeFilters (ps : List (String × List String)) : List WherePred :=
  ps.filterMap (fun kv =>
    if kv.1 = "__limit__" then none else some (.eqList kv.1 kv.2))

theorem applySelectParams_wheres (ps : List (String × List String))
    (st : SelectState) :
    (applySelectParams st ps).wheres = st.wheres ++ selectFilters ps := by
  induction ps generalizing st with
  | nil => simp [applySelectParams, selectFilters]
  | cons kv ps ih =>
    obtain ⟨k, v⟩ := kv
    rw [applySelectParams]
    split_ifs with h1 h2 h3
    · rw [ih]
      simp [selectFilters, List.filterMap_cons, h1]
    · rw [ih]
      simp [selectFilters, List.filterMap_cons, h1, h2]
    · rw [ih]
      simp [selectFilters, List.filterMap_cons, h1, h2, h3]
    · rw [ih]
      simp [selectFilters, List.filterMap_cons, h1, h2, h3]

theorem applySelectParams_table (ps : List (String × List String))
    (st : SelectState) : (applySelectParams st ps).table = st.table := by
  induction ps generalizing st with
  | nil => rfl
  | cons kv ps ih =>
    obtain ⟨k, v⟩ := kv
    rw [applySelectParams]
    split_ifs <;> exact ih _

theorem applyUpdateParams_wheres (ps : List (String × List String))
    (st : UpdateState) :
    (applyUpdateParams st ps).wheres = st.wheres ++ writeFilters ps := by
  induction ps generalizing st with
  | nil => simp [applyUpdateParams, writeFilters]
  | cons kv ps ih =>
    obtain ⟨k, v⟩ := kv
    rw [applyUpdateParams]
    split_ifs with h1 <;> simp [ih, writeFilters, h1, List.filterMap_cons]

theorem applyUpdateParams_sets (ps : List (String × List String))
    (st : UpdateState) : (applyUpdateParams st ps).sets = st.sets := by
  induction ps generalizing st with
  | nil => rfl
  | cons kv ps ih =>
    obtain ⟨k, v⟩ := kv
    rw [applyUpdateParams]
    split_ifs <;> exact ih _

theorem applyUpdateParams_table (ps : List (String × List String))
    (st : UpdateState) : (applyUpdateParams st ps).table = st.table := by
  induction ps generalizing st with
  | nil => rfl
  | cons kv ps ih =>
    obtain ⟨k, v⟩ := kv
    rw [applyUpdateParams]
    split_ifs <;> exact ih _

theorem applyDeleteParams_wheres (ps : List (String × List String))
    (st : DeleteState) :
    (applyDeleteParams st ps).wheres = st.wheres ++ writeFilters ps := by
  induction ps generalizing st with
  | nil => simp [applyDeleteParams, writeFilters]
  | cons kv ps ih =>
    obtain ⟨k, v⟩ := kv
    rw [applyDeleteParams]
    split_ifs with h1 <;> simp [ih, writeFilters, h1, List.filterMap_cons]

theorem applySelectParams_limit_skip (vs : List String)
    (ps : List (String × List String)) (st : SelectState)
    (h : atoi (first vs) = none) :
    applySelectParams st (("__limit__", vs) :: ps) = applySelectParams st ps := by
  rw [applySelectParams, if_pos rfl, h]

theorem applySelectParams_offset_skip (vs : List String)
    (ps : List (String × List String)) (st : SelectState)
    (h : atoi (first vs) = none) :
    applySelectParams st (("__offset__", vs) :: ps) = applySelectParams st ps := by
  rw [applySelectParams, if_neg (by decide), if_pos rfl, h]

theorem applyUpdateParams_limit_skip (vs : List String)
    (ps : List (String × List String)) (st : UpdateState)
    (h : atoi (first vs) = none) :
    applyUpdateParams st (("__limit__", vs) :: ps) = applyUpdateParams st ps := by
  rw [applyUpdateParams, if_pos rfl, h]

theorem applyDeleteParams_limit_skip (vs : List String)
    (ps : List (String × List String)) (st : DeleteState)
    (h : atoi (first vs) = none) :
    applyDeleteParams st (("__limit__", vs) :: ps) = applyDeleteParams st ps := by
  rw [applyDeleteParams, if_pos rfl, h]

theorem applySelectParams_limit_invariant (ps : List (String × List String))
    (st : SelectState) (h : ∀ kv ∈ ps, kv.1 ≠ "__limit__") :
    (applySelectParams st ps).limit = st.limit := by
  induction ps generalizing st with
  | nil => rfl
  | cons kv ps ih =>
    obtain ⟨k, v⟩ := kv
    have hk : k ≠ "__limit__" := h (k, v) (by simp)
    have hrest : ∀ kv ∈ ps, kv.1 ≠ "__limit__" := fun kv hkv => h kv (by simp [hkv])
    rw [applySelectParams, if_neg hk]
    split_ifs <;> exact ih _ hrest

theorem applySelectParams_offset_invariant (ps : List (String × List String))
    (st : SelectState) (h : ∀ kv ∈ ps, kv.1 ≠ "__offset__") :
    (applySelectParams st ps).offset = st.offset := by
  induction ps generalizing st with
  | nil => rfl
  | cons kv ps ih =>
    obtain ⟨k, v⟩ := kv
    have hk : k ≠ "__offset__" := h (k, v) (by simp)
    have hrest : ∀ kv ∈ ps, kv.1 ≠ "__offset__" := fun kv hkv => h kv (by simp [hkv])
    rw [applySelectParams, if_neg hk]
    by_cases h1 : k = "__limit__"
    · rw [if_pos h1]
      exact ih _ hrest
    · rw [if_neg h1]
      by_cases h3 : k = "__order_by__"
      · rw [if_pos h3]
        exact ih _ hrest
      · rw [if_neg h3]
        exact ih _ hrest

theorem applyUpdateParams_limit_invariant (ps : List (String × List String))
    (st : UpdateState) (h : ∀ kv ∈ ps, kv.1 ≠ "__limit__") :
    (applyUpdateParams st ps).limit = st.limit := by
  induction ps generalizing st with
  | nil => rfl
  | cons kv ps ih =>
    obtain ⟨k, v⟩ := kv
    have hk : k ≠ "__limit__" := h (k, v) (by simp)
    have hrest : ∀ kv ∈ ps, kv.1 ≠ "__limit__" := fun kv hkv => h kv (by simp [hkv])
    rw [applyUpdateParams, if_neg hk]
    exact ih _ hrest

theorem applyDeleteParams_limit_invariant (ps : List (String × List String))
    (st : DeleteState) (h : ∀ kv ∈ ps, kv.1 ≠ "__limit__") :
    (applyDeleteParams st ps).limit = st.limit := by
  induction ps generalizing st with
  | nil => rfl
  | cons kv ps ih =>
    obtain ⟨k, v⟩ := kv
    have hk : k ≠ "__limit__" := h (k, v) (by simp)
    have hrest : ∀ kv ∈ ps, kv.1 ≠ "__limit__" := fun kv hkv => h kv (by simp [hkv])
    rw [applyDeleteParams, if_neg hk]
    exact ih _ hrest

theorem int64Check_range (v n : Int) (h : int64Check v = some n) :
    -(2 ^ 63) ≤ n ∧ n < 2 ^ 63 := by
  rw [int64Check] at h
  split_ifs at h with h1
  injection h with h
  subst h
  exact h1

theorem atoi_range (s : String) (n : Int) (h : atoi s = some n) :
    -(2 ^ 63) ≤ n ∧ n < 2 ^ 63 := by
  rw [atoi] at h
  split_ifs at h with h1 h2
  exact int64Check_range _ _ h

theorem toUInt64Nat_of_nonneg (n : Int) (h0 : 0 ≤ n) (h1 : n < 2 ^ 64) :
    toUInt64Nat n = n.toNat := by
  rw [toUInt64Nat, Int.emod_eq_of_lt h0 (by omega)]

theorem toUInt64Nat_of_neg (n : Int) (h0 : -(2 ^ 64) ≤ n) (h1 : n < 0) :
    toUInt64Nat n = (n + 2 ^ 64).toNat := by
  rw [toUInt64Nat]
  have key : n % (18446744073709551616 : Int) = n + 2 ^ 64 := by
    have h2 : (n + 18446744073709551616 * 1) % 18446744073709551616 =
        n % 18446744073709551616 := Int.add_mul_emod_self_left n 18446744073709551616 1
    have h3 : (n + 18446744073709551616 * 1) % 18446744073709551616 =
        n + 18446744073709551616 * 1 := Int.emod_eq_of_lt (by omega) (by omega)
    omega
  rw [key]

/-! Association-list lemmas for the row marshaler. -/

theorem lookupKV_of_ne (rest : Row) (k0 k : String) (v0 : DBVal) (h : k0 ≠ k) :
    lookupKV ((k0, v0) :: rest) k = lookupKV rest k := by
  rw [lookupKV, if_neg h]

theorem insertKV_of_absent (acc : Row) (k : String) (v : DBVal)
    (h : lookupKV acc k = none) : insertKV acc k v = acc ++ [(k, v)] := by
  induction acc with
  | nil => rfl
  | cons kv rest ih =>
    obtain ⟨k0, v0⟩ := kv
    by_cases hk : k0 = k
    · rw [lookupKV, if_pos hk] at h
      exact absurd h (by simp)
    · rw [lookupKV, if_neg hk] at h
      rw [insertKV, if_neg hk, ih h]
      rfl

theorem lookupKV_append_of_absent (a b : Row) (k : String)
    (h : lookupKV a k = none) : lookupKV (a ++ b) k = lookupKV b k := by
  induction a with
  | nil => rfl
  | cons kv rest ih =>
    obtain ⟨k0, v0⟩ := kv
    by_cases hk : k0 = k
    · rw [lookupKV, if_pos hk] at h
      exact absurd h (by simp)
    · rw [lookupKV, if_neg hk] at h
      rw [List.cons_append, lookupKV, if_neg hk]
      exact ih h

theorem lookupKV_eq_none (l : Row) (k : String) (h : ∀ kv ∈ l, kv.1 ≠ k) :
    lookupKV l k = none := by
  induction l with
  | nil => rfl
  | cons kv rest ih =>
    obtain ⟨k0, v0⟩ := kv
    rw [lookupKV, if_neg (h (k0, v0) (by simp))]
    exact ih (fun kv hkv => h kv (by simp [hkv]))

/-- If all keys of `pairs` are fresh for `acc` and distinct from each other,
the insertion fold is a plain append of the marshalled pairs. -/
theorem foldl_insertKV_fresh (pairs : List (String × DBVal)) (acc : Row)
    (hnodup : (pairs.map Prod.fst).Nodup)
    (hfresh : ∀ k ∈ pairs.map Prod.fst, lookupKV acc k = none) :
    pairs.foldl (fun m kv => insertKV m kv.1 (marshalVal kv.2)) acc =
      acc ++ pairs.map (fun kv => (kv.1, marshalVal kv.2)) := by
  induction pairs generalizing acc with
  | nil => simp
  | cons kv rest ih =>
    obtain ⟨k, v⟩ := kv
    rw [List.foldl_cons]
    have hk : lookupKV acc k = none := hfresh k (by simp)
    rw [insertKV_of_absent acc k (marshalVal v) hk]
    rw [List.map_cons, List.nodup_cons] at hnodup
    have hfresh2 : ∀ k2 ∈ rest.map Prod.fst, lookupKV (acc ++ [(k, marshalVal v)]) k2 = none := by
      intro k2 hk2
      have hne : k ≠ k2 := fun he => hnodup.1 (he ▸ hk2)
      rw [lookupKV_append_of_absent _ _ _ (hfresh k2 (by simp [hk2]))]
      rw [lookupKV, if_neg hne]
      rfl
    rw [ih _ hnodup.2 hfresh2]
    simp

theorem marshalRow_eq_map (cols : List String) (vals : List DBVal)
    (hnodup : cols.Nodup) (hlen : vals.length = cols.length) :
    marshalRow cols vals =
      (cols.zip vals).map (fun kv => (kv.1, marshalVal kv.2)) := by
  rw [marshalRow]
  have hkeys : (cols.zip vals).map Prod.fst = cols :=
    List.map_fst_zip cols vals (le_of_eq hlen.symm)
  refine foldl_insertKV_fresh _ _ ?_ ?_
  · rw [hkeys]
    exact hnodup
  · intro k _
    rfl

theorem lookupKV_nodup_get (l : Row) (hnodup : (l.map Prod.fst).Nodup) :
    ∀ i (h : i < l.length), lookupKV l (l.get ⟨i, h⟩).1 = some (l.get ⟨i, h⟩).2 := by
  induction l with
  | nil => intro i h; simp at h
  | cons kv rest ih =>
    obtain ⟨k0, v0⟩ := kv
    rw [List.map_cons, List.nodup_cons] at hnodup
    intro i h
    cases i with
    | zero => rw [lookupKV]; simp
    | succ j =>
      have hj : j < rest.length := by simpa using h
      have hget : ((k0, v0) :: rest).get ⟨j + 1, h⟩ = rest.get ⟨j, hj⟩ := rfl
      rw [hget]
      have hmem : rest.get ⟨j, hj⟩ ∈ rest := List.get_mem rest j hj
      have hne : k0 ≠ (rest.get ⟨j, hj⟩).1 := by
        intro he
        apply hnodup.1
        rw [he]
        exact List.mem_map.2 ⟨rest.get ⟨j, hj⟩, hmem, rfl⟩
      rw [lookupKV, if_neg hne]
      exact ih hnodup.2 j hj

/-! Scan-loop lemmas. -/

theorem scanRows_all_ok (cols : List String) (rows : List (List DBVal)) :
    scanRows cols (rows.map .ok) = .ok (rows.map (marshalRow cols)) := by
  induction rows with
  | nil => rfl
  | cons r rest ih => rw [List.map_cons, scanRows, ih]; rfl

theorem scanRows_has_error (cols : List String)
    (rows : List (Except String (List DBVal)))
    (h : ∃ r ∈ rows, r.isOk = false) : ∃ e, scanRows cols rows = .error e := by
  induction rows with
  | nil => simp at h
  | cons r rest ih =>
    cases r with
    | error e => exact ⟨e, rfl⟩
    | ok vals =>
      obtain ⟨r2, hr2, hr2e⟩ := h
      rcases List.mem_cons.1 hr2 with he | he
      · subst he
        simp [Except.isOk, Except.toBool] at hr2e
      · obtain ⟨e, hee⟩ := ih ⟨r2, he, hr2e⟩
        exact ⟨e, by rw [scanRows, hee]; rfl⟩

/-! Batch-coordinator fold lemmas. -/

theorem createMany_fold_spec (res : Nat → Except String Item) (order : List Nat)
    (acc : List Item × List String) :
    order.foldl (fun acc i =>
        match res i with
        | .ok item => (acc.1 ++ [item], acc.2)
        | .error e => (acc.1, acc.2 ++ [e])) acc =
      (acc.1 ++ okResults res order, acc.2 ++ errResults res order) := by
  induction order generalizing acc with
  | nil => simp [okResults, errResults]
  | cons i rest ih =>
    rw [List.foldl_cons]
    cases hres : res i with
    | ok item =>
      rw [ih]
      simp [okResults, errResults, List.filterMap_cons, hres, Except.toOption]
    | error e =>
      rw [ih]
      simp [okResults, errResults, List.filterMap_cons, hres, Except.toOption]

theorem okResults_length_add (res : Nat → Except String Item) (order : List Nat) :
    (okResults res order).length + (errResults res order).length = order.length := by
  induction order with
  | nil => rfl
  | cons i rest ih =>
    cases hres : res i with
    | ok item =>
      simp only [okResults, errResults, List.filterMap_cons, hres, Except.toOption] at *
      simp at *
      omega
    | error e =>
      simp only [okResults, errResults, List.filterMap_cons, hres, Except.toOption] at *
      simp at *
      omega

theorem applySelectParams_limit_parse (vs : List String)
    (ps : List (String × List String)) (st : SelectState) (n : Int)
    (h : atoi (first vs) = some n) :
    applySelectParams st (("__limit__", vs) :: ps) =
      applySelectParams { st with limit := some (toUInt64Nat n) } ps := by
  rw [applySelectParams, if_pos rfl, h]

theorem applySelectParams_offset_parse (vs : List String)
    (ps : List (String × List String)) (st : SelectState) (n : Int)
    (h : atoi (first vs) = some n) :
    applySelectParams st (("__offset__", vs) :: ps) =
      applySelectParams { st with offset := some (toUInt64Nat n) } ps := by
  rw [applySelectParams, if_neg (by decide), if_pos rfl, h]

theorem applySelectParams_limit_head (v : String) (vrest : List String)
    (ps : List (String × List String)) (st : SelectState) :
    applySelectParams st (("__limit__", v :: vrest) :: ps) =
      applySelectParams st (("__limit__", [v]) :: ps) := by
  simp only [applySelectParams]
  rfl

theorem applySelectParams_offset_head (v : String) (vrest : List String)
    (ps : List (String × List String)) (st : SelectState) :
    applySelectParams st (("__offset__", v :: vrest) :: ps) =
      applySelectParams st (("__offset__", [v]) :: ps) := by
  simp only [applySelectParams]
  rfl

theorem applyDeleteParams_offset_filter (vs : List String)
    (ps : List (String × List String)) (st : DeleteState) :
    applyDeleteParams st (("__offset__", vs) :: ps) =
      applyDeleteParams { st with wheres := st.wheres ++ [.eqList "__offset__" vs] } ps := by
  rw [applyDeleteParams, if_neg (by decide)]

/-- With the select compile always succeeding, `read` is definitionally the
dispatch on the `readQuery` outcome. -/
theorem read_eq_match (up path : String) (params : List (String × List String))
    (q : Except String QueryRows) :
    read up path params q =
      (match readQuery q with
        | .error e => .error (InternalError (some e))
        | .ok tableData => .ok tableData) := rfl

/-! ## Claim theorems -/

/-- C2: every non-reserved query-parameter key `k` with single value `v`
contributes the predicate `k IN (?)` with argument `v` to the WHERE clause of
the compiled select, never the bare `k = ?` (the bare form is reserved for the
path-segment id filter); in particular `GET /user?name=jim` compiles to
`SELECT * FROM user WHERE name IN (?)` with arguments `["jim"]`. -/
theorem c2_in_list_normalization :
    (∀ (up path : String) (params : List (String × List String)) (k v : String),
      (k, [v]) ∈ params → k ≠ "__limit__" → k ≠ "__offset__" → k ≠ "__order_by__" →
        WherePred.eqList k [v] ∈ (selectStateOf up path params).wheres ∧
        predSql (.eqList k [v]) = k ++ " IN (?)" ∧
        predArgs (.eqList k [v]) = [.str v] ∧
        ∀ w ∈ selectFilters params, ∃ k2 vs, w = WherePred.eqList k2 vs) ∧
    buildSelectQuery "/" "/user" [("name", ["jim"])] =
      .ok ("SELECT * FROM user WHERE name IN (?)", [.str "jim"]) := by
  constructor
  · intro up path params k v hmem h1 h2 h3
    refine ⟨?_, ?_, rfl, ?_⟩
    · rw [selectStateOf, applySelectParams_wheres]
      refine List.mem_append_right _ ?_
      refine List.mem_filterMap.2 ⟨(k, [v]), hmem, ?_⟩
      simp [h1, h2, h3]
    · show k ++ " IN (" ++ placeholders 1 ++ ")" = k ++ " IN (?)"
      rw [String.append_assoc, String.append_assoc]
      congr 1
    · intro w hw
      obtain ⟨kv, _, heq⟩ := List.mem_filterMap.1 hw
      split_ifs at heq
      injection heq with heq
      exact ⟨kv.1, kv.2, heq.symm⟩
  · decide

/-- C2 witness: the theorem instantiated at the spotlight request
`GET /user?name=jim`. -/
theorem c2_in_list_normalization_witness :
    WherePred.eqList "name" ["jim"] ∈
      (selectStateOf "/" "/user" [("name", ["jim"])]).wheres ∧
    predSql (.eqList "name" ["jim"]) = "name" ++ " IN (?)" := by
  have h := (c2_in_list_normalization.1 "/" "/user" [("name", ["jim"])] "name" "jim"
    (by simp) (by decide) (by decide) (by decide))
  exact ⟨h.1, h.2.1⟩

/-- C3: an update/delete execution that completes without a database error
returns NotFound (HTTP 404, never a success) when it affected zero rows, and
success with no payload (HTTP 204) when it affected a positive number of
rows. -/
theorem c3_zero_rows_not_found :
    ∀ r : ExecResult, r.rowsAffectedErr = none →
      (r.rowsAffectedVal = 0 →
        execQuery (.ok r) = .error (NotFound none) ∧
        (NotFound none).code = 404 ∧
        respondStatus false (some (NotFound none)) 200 = 404 ∧
        execQuery (.ok r) ≠ .ok ()) ∧
      (0 < r.rowsAffectedVal →
        execQuery (.ok r) = .ok () ∧
        respondStatus false none 200 = 204) := by
  intro r hra
  constructor
  · intro hzero
    have he : execQuery (.ok r) = .error (NotFound none) := by
      rw [execQuery, hra, if_pos hzero]
    exact ⟨he, rfl, rfl, by rw [he]; intro hcon; exact Except.noConfusion hcon⟩
  · intro hpos
    have hne : ¬r.rowsAffectedVal = 0 := by omega
    exact ⟨by rw [execQuery, hra, if_neg hne], rfl⟩

/-- C3 witness: a write affecting zero rows yields the 404-kind error, one
affecting three rows yields the bare success. -/
theorem c3_zero_rows_not_found_witness :
    execQuery (.ok ⟨7, none, 0, none⟩) = .error (NotFound none) ∧
    execQuery (.ok ⟨7, none, 3, none⟩) = .ok () :=
  ⟨((c3_zero_rows_not_found ⟨7, none, 0, none⟩ rfl).1 rfl).1,
    ((c3_zero_rows_not_found ⟨7, none, 3, none⟩ rfl).2 (by decide)).1⟩

/-- C4: error classification is asymmetric between reads and writes: a read
failure (query execution, column retrieval, or row scan) surfaces as
InternalError (HTTP 500), while a write failure (execution, or retrieval of
the affected-row count) surfaces as BadRequest (HTTP 400). -/
theorem c4_read_write_error_asymmetry :
    (∀ (up path : String) (params : List (String × List String)) (e : String),
      read up path params (.error e) = .error (InternalError (some e)) ∧
      (InternalError (some e)).code = 500) ∧
    (∀ (up path : String) (params : List (String × List String)) (e : String)
      (rows : List (Except String (List DBVal))) (fe : Option String),
      read up path params (.ok ⟨.error e, rows, fe⟩) = .error (InternalError (some e))) ∧
    (∀ (up path : String) (params : List (String × List String)) (cols : List String)
      (rows : List (Except String (List DBVal))) (fe : Option String),
      (∃ r ∈ rows, r.isOk = false) →
      ∃ e2, read up path params (.ok ⟨.ok cols, rows, fe⟩) =
        .error (InternalError (some e2))) ∧
    (∀ e : String, execQuery (.error e) = .error (BadRequest (some e)) ∧
      (BadRequest (some e)).code = 400) ∧
    (∀ (r : ExecResult) (e : String), r.rowsAffectedErr = some e →
      execQuery (.ok r) = .error (BadRequest (some e))) := by
  refine ⟨fun up path params e => ⟨rfl, rfl⟩, fun up path params e rows fe => rfl,
    ?_, fun e => ⟨rfl, rfl⟩, ?_⟩
  · intro up path params cols rows fe h
    obtain ⟨e2, he2⟩ := scanRows_has_error cols rows h
    refine ⟨e2, ?_⟩
    rw [read_eq_match]
    have hq : readQuery (.ok ⟨.ok cols, rows, fe⟩) = .error e2 := by
      show (match scanRows cols rows with
        | .error e => (.error e : Except String (List Row))
        | .ok tableData =>
          match fe with
          | some e => .error e
          | none => .ok tableData) = .error e2
      rw [he2]
    rw [hq]
  · intro r e hre
    rw [execQuery, hre]

/-- C4 witness: a failing scan on the read path yields a 500-kind error and a
failing affected-row retrieval on the write path yields a 400-kind error. -/
theorem c4_read_write_error_asymmetry_witness :
    read "/" "/user" [] (.error "boom") = .error (InternalError (some "boom")) ∧
    (∃ e2, read "/" "/user" [] (.ok ⟨.ok ["a"], [.error "scanfail"], none⟩) =
      .error (InternalError (some e2))) ∧
    execQuery (.ok ⟨0, none, 0, some "cntfail"⟩) = .error (BadRequest (some "cntfail")) :=
  ⟨(c4_read_write_error_asymmetry.1 "/" "/user" [] "boom").1,
    c4_read_write_error_asymmetry.2.2.1 "/" "/user" [] ["a"] [.error "scanfail"] none
      ⟨.error "scanfail", by simp, rfl⟩,
    c4_read_write_error_asymmetry.2.2.2.2 ⟨0, none, 0, some "cntfail"⟩ "cntfail" rfl⟩

/-- C8: the raw passthrough executes a nonempty read statement and returns
its rows; otherwise a nonempty write statement and returns
last-insert-id/rows-affected; otherwise fails as BadRequest; and with raw
mode disabled every request to the root path, POST included, is BadRequest
(HTTP 400). -/
theorem c8_raw_passthrough :
    (∀ (query : RawQuery) (q : Except String QueryRows)
      (execRes : Except String ExecResult) (rows : List Row),
      query.ReadQuery ≠ "" → readQuery q = .ok rows →
      raw (.ok query) q execRes = .ok (.rows rows)) ∧
    (∀ (query : RawQuery) (q : Except String QueryRows) (r : ExecResult),
      query.ReadQuery = "" → query.WriteQuery ≠ "" →
      raw (.ok query) q (.ok r) = .ok (.writeInfo r.lastInsertIdVal r.rowsAffectedVal)) ∧
    (∀ (query : RawQuery) (q : Except String QueryRows)
      (execRes : Except String ExecResult),
      query.ReadQuery = "" → query.WriteQuery = "" →
      raw (.ok query) q execRes = .error (BadRequest none) ∧
      (BadRequest none).code = 400) ∧
    (∀ (method : String) (rawOutcome : Except SqldError RawResult),
      rootDispatch false method rawOutcome = .error (BadRequest none)) := by
  have raw_eq_if : ∀ (query : RawQuery) (q : Except String QueryRows)
      (execRes : Except String ExecResult),
      raw (.ok query) q execRes =
        if query.ReadQuery ≠ "" then
          (match readQuery q with
            | .error e => .error (BadRequest (some e))
            | .ok tableData => .ok (.rows tableData))
        else if query.WriteQuery ≠ "" then
          (match execRes with
            | .error e => .error (BadRequest (some e))
            | .ok res => .ok (.writeInfo res.lastInsertIdVal res.rowsAffectedVal))
        else .error (BadRequest none) := fun _ _ _ => rfl
  refine ⟨?_, ?_, ?_, ?_⟩
  · intro query q execRes rows hr hq
    rw [raw_eq_if, if_pos hr, hq]
  · intro query q r hr hw
    rw [raw_eq_if, if_neg (by simp [hr]), if_pos hw]
  · intro query q execRes hr hw
    exact ⟨by rw [raw_eq_if, if_neg (by simp [hr]), if_neg (by simp [hw])], rfl⟩
  · intro method rawOutcome
    rw [rootDispatch, if_neg (by simp)]

/-- C8 witness: the theorem instantiated at a successful raw read, a
successful raw write, an empty body, and a POST with raw mode disabled. -/
theorem c8_raw_passthrough_witness :
    raw (.ok ⟨"SELECT * FROM t1", ""⟩) (.ok ⟨.ok [], [], none⟩) (.error "unused") =
      .ok (.rows []) ∧
    raw (.ok ⟨"", "INSERT INTO t1 (a) VALUES (1)"⟩) (.error "unused") (.ok ⟨3, none, 1, none⟩) =
      .ok (.writeInfo 3 1) ∧
    raw (.ok ⟨"", ""⟩) (.error "unused") (.error "unused") = .error (BadRequest none) ∧
    rootDispatch false "POST" (.ok (.rows [])) = .error (BadRequest none) :=
  ⟨c8_raw_passthrough.1 ⟨"SELECT * FROM t1", ""⟩ _ _ [] (by decide) rfl,
    c8_raw_passthrough.2.1 ⟨"", "INSERT INTO t1 (a) VALUES (1)"⟩ _ ⟨3, none, 1, none⟩
      rfl (by decide),
    (c8_raw_passthrough.2.2.1 ⟨"", ""⟩ _ _ rfl rfl).1,
    c8_raw_passthrough.2.2.2 "POST" (.ok (.rows []))⟩

/-- C9: the batch-insert coordinator is total only when every array element is
a JSON object; the per-item goroutine performs the unchecked type assertion
`list[i].(map[string]interface{})`, so an array containing a non-object
element (here the number 3) panics (modelled `none`) instead of recording a
per-item error. -/
theorem c9_batch_panic :
    (∀ (list : List JSON) (res : Nat → Except String Item) (order : List Nat),
      (∀ x ∈ list, x.isObj = true) →
      ∃ out, createMany list res order = some out) ∧
    (∀ (res : Nat → Except String Item) (order : List Nat),
      createMany [JSON.scalar (.int 3)] res order = none) := by
  constructor
  · intro list res order h
    rw [createMany, if_pos (List.all_eq_true.2 h)]
    exact ⟨_, rfl⟩
  · intro res order
    rw [createMany, if_neg (by simp [JSON.isObj])]

/-- C9 witness: an all-objects batch completes, the mixed batch from the
claim panics. -/
theorem c9_batch_panic_witness :
    (∃ out, createMany [JSON.obj [("a", .str "b")]] (fun _ => .ok []) [0] = some out) ∧
    createMany [JSON.scalar (.int 3)] (fun _ => .ok []) [0] = none :=
  ⟨c9_batch_panic.1 [JSON.obj [("a", .str "b")]] (fun _ => .ok []) [0]
      (by intro x hx; simp at hx; subst hx; rfl),
    c9_batch_panic.2 (fun _ => .ok []) [0]⟩

/-- C6: the row marshaler converts a scanned raw byte sequence to its text
string, passes every other scanned value through unchanged, and keys each
value by its column name positionally (column `i` maps to scanned value `i`);
an all-success read returns exactly the marshalled rows in order. -/
theorem c6_row_marshal :
    (∀ s, marshalVal (.bytes s) = .str s) ∧
    (∀ v : DBVal, v.isBytes = false → marshalVal v = v) ∧
    (∀ (cols : List String) (vals : List DBVal) (i : Nat)
      (hnodup : cols.Nodup) (hlen : vals.length = cols.length) (hi : i < cols.length),
      lookupKV (marshalRow cols vals) (cols.get ⟨i, hi⟩) =
        some (marshalVal (vals.get ⟨i, by omega⟩))) ∧
    (∀ (cols : List String) (rows : List (List DBVal)),
      readQuery (.ok ⟨.ok cols, rows.map .ok, none⟩) = .ok (rows.map (marshalRow cols))) := by
  refine ⟨fun s => rfl, ?_, ?_, ?_⟩
  · intro v hv
    cases v <;> first
      | rfl
      | exact absurd hv (by rw [DBVal.isBytes]; simp)
  · intro cols vals i hnodup hlen hi
    have hm := marshalRow_eq_map cols vals hnodup hlen
    have hkeys : (((cols.zip vals).map (fun kv => (kv.1, marshalVal kv.2))).map Prod.fst).Nodup := by
      rw [List.map_map]
      have : (Prod.fst ∘ fun kv : String × DBVal => (kv.1, marshalVal kv.2)) = Prod.fst := rfl
      rw [this, List.map_fst_zip cols vals (le_of_eq hlen.symm)]
      exact hnodup
    have hilen : i < ((cols.zip vals).map (fun kv => (kv.1, marshalVal kv.2))).length := by
      simp
      omega
    have hget : (((cols.zip vals).map (fun kv => (kv.1, marshalVal kv.2))).get ⟨i, hilen⟩) =
        (cols.get ⟨i, hi⟩, marshalVal (vals.get ⟨i, by omega⟩)) := by
      have h1 : (((cols.zip vals).map (fun kv => (kv.1, marshalVal kv.2))).get ⟨i, hilen⟩) =
          ((cols.zip vals).map (fun kv => (kv.1, marshalVal kv.2)))[i] := rfl
      rw [h1, List.getElem_map, List.getElem_zip]
      rfl
    have := lookupKV_nodup_get _ hkeys i hilen
    rw [hget] at this
    rw [hm]
    exact this
  · intro cols rows
    have hs := scanRows_all_ok cols rows
    show (match scanRows cols (rows.map .ok) with
      | .error e => (.error e : Except String (List Row))
      | .ok tableData =>
        match (none : Option String) with
        | some e => .error e
        | none => .ok tableData) = .ok (rows.map (marshalRow cols))
    rw [hs]

/-- C6 witness: a two-column row with one byte-sequence value and one integer
value marshals to the coerced string and the unchanged integer. -/
theorem c6_row_marshal_witness :
    lookupKV (marshalRow ["a", "b"] [.bytes "hi", .int 5]) "a" = some (.str "hi") ∧
    lookupKV (marshalRow ["a", "b"] [.bytes "hi", .int 5]) "b" = some (.int 5) ∧
    readQuery (.ok ⟨.ok ["a", "b"], [.ok [.bytes "hi", .int 5]], none⟩) =
      .ok [marshalRow ["a", "b"] [.bytes "hi", .int 5]] := by
  refine ⟨?_, ?_, ?_⟩
  · have h := (c6_row_marshal.2.2.1 ["a", "b"] [.bytes "hi", .int 5] 0
      (by decide) (by decide) (by decide))
    exact h
  · have h := (c6_row_marshal.2.2.1 ["a", "b"] [.bytes "hi", .int 5] 1
      (by decide) (by decide) (by decide))
    exact h
  · exact c6_row_marshal.2.2.2 ["a", "b"] [[.bytes "hi", .int 5]]

/-- C10: a `__limit__`/`__offset__` value parsing as a negative integer is
neither ignored nor rejected: it is converted to an unsigned 64-bit integer
modulo `2^64` (so `__limit__=-1` compiles to
`LIMIT 18446744073709551615`), and only the first value of a multi-valued
`__limit__`/`__offset__` parameter is considered. -/
theorem c10_negative_limit :
    (buildSelectQuery "/" "/user" [("__limit__", ["-1"])] =
      .ok ("SELECT * FROM user LIMIT 18446744073709551615", [])) ∧
    (∀ (up path : String) (ps1 ps2 : List (String × List String))
      (vs : List String) (n : Int),
      atoi (first vs) = some n → n < 0 →
      (∀ kv ∈ ps2, kv.1 ≠ "__limit__") →
      (selectStateOf up path (ps1 ++ ("__limit__", vs) :: ps2)).limit =
        some ((n + 2 ^ 64).toNat)) ∧
    (∀ (up path : String) (ps1 ps2 : List (String × List String))
      (v : String) (vrest : List String),
      buildSelectQuery up path (ps1 ++ ("__limit__", v :: vrest) :: ps2) =
        buildSelectQuery up path (ps1 ++ ("__limit__", [v]) :: ps2)) ∧
    (∀ (up path : String) (ps1 ps2 : List (String × List String))
      (v : String) (vrest : List String),
      buildSelectQuery up path (ps1 ++ ("__offset__", v :: vrest) :: ps2) =
        buildSelectQuery up path (ps1 ++ ("__offset__", [v]) :: ps2)) := by
  refine ⟨by decide, ?_, ?_, ?_⟩
  · intro up path ps1 ps2 vs n hn hneg hps2
    rw [selectStateOf, applySelectParams_append,
      applySelectParams_limit_parse vs ps2 _ n hn,
      applySelectParams_limit_invariant ps2 _ hps2]
    have hrange := atoi_range _ _ hn
    rw [toUInt64Nat_of_neg n (by omega) hneg]
  · intro up path ps1 ps2 v vrest
    rw [buildSelectQuery, buildSelectQuery, selectStateOf, selectStateOf,
      applySelectParams_append, applySelectParams_append,
      applySelectParams_limit_head]
  · intro up path ps1 ps2 v vrest
    rw [buildSelectQuery, buildSelectQuery, selectStateOf, selectStateOf,
      applySelectParams_append, applySelectParams_append,
      applySelectParams_offset_head]

/-- C10 witness: the general clauses instantiated at `__limit__=-1` and at a
doubled `__limit__=7&__limit__=9`-style value list. -/
theorem c10_negative_limit_witness :
    (selectStateOf "/" "/user" ([] ++ ("__limit__", ["-1"]) :: [])).limit =
      some (((-1 : Int) + 2 ^ 64).toNat) ∧
    buildSelectQuery "/" "/user" ([] ++ ("__limit__", "7" :: ["9"]) :: []) =
      buildSelectQuery "/" "/user" ([] ++ ("__limit__", ["7"]) :: []) :=
  ⟨c10_negative_limit.2.1 "/" "/user" [] [] ["-1"] (-1) (by decide) (by decide)
      (by intro kv hkv; simp at hkv),
    c10_negative_limit.2.2.1 "/" "/user" [] [] "7" ["9"]⟩

/-- C7 counterexample: the claim quantifies over select, update AND delete
compiles, but only the select loop reserves `__offset__`.  In the delete
compile `DELETE /user?__offset__=5`, the parseable non-negative `__offset__`
value appends no OFFSET clause; it becomes the WHERE filter
`__offset__ IN (?)` and contributes the argument `"5"`. -/
theorem c7_counterexample :
    buildDeleteQuery "/" "/user" [("__offset__", ["5"])] =
      .ok ("DELETE FROM user WHERE __offset__ IN (?)", [.str "5"]) ∧
    containsSub "DELETE FROM user WHERE __offset__ IN (?)" "OFFSET" = false ∧
    containsSub "DELETE FROM user WHERE __offset__ IN (?)" "__offset__ IN (?)" = true := by
  refine ⟨by decide, by decide, by decide⟩

/-- C7 (amended): in the select compile, `__limit__` and `__offset__` values
parsing as non-negative integers set the corresponding LIMIT/OFFSET clause;
in the update and delete compiles only `__limit__` is reserved, and
`__offset__` is treated as an ordinary column filter.  An unparseable
reserved value is silently ignored, contributing nothing at all (the compile
result equals that of the request without the parameter), and in no case
does such a value make the compile fail. -/
theorem c7_limit_offset :
    (buildSelectQuery "/" "/user" [("__limit__", ["100"]), ("__offset__", ["200"])] =
      .ok ("SELECT * FROM user LIMIT 100 OFFSET 200", [])) ∧
    (∀ (up path : String) (ps1 ps2 : List (String × List String))
      (vs : List String) (n : Int),
      atoi (first vs) = some n → 0 ≤ n →
      (∀ kv ∈ ps2, kv.1 ≠ "__limit__") →
      (selectStateOf up path (ps1 ++ ("__limit__", vs) :: ps2)).limit = some n.toNat) ∧
    (∀ (up path : String) (ps1 ps2 : List (String × List String))
      (vs : List String) (n : Int),
      atoi (first vs) = some n → 0 ≤ n →
      (∀ kv ∈ ps2, kv.1 ≠ "__offset__") →
      (selectStateOf up path (ps1 ++ ("__offset__", vs) :: ps2)).offset = some n.toNat) ∧
    (∀ m, limitSql (some m) = " LIMIT " ++ decStr m) ∧
    (∀ m, offsetSql (some m) = " OFFSET " ++ decStr m) ∧
    (∀ (up path : String) (ps1 ps2 : List (String × List String)) (vs : List String),
      atoi (first vs) = none →
      buildSelectQuery up path (ps1 ++ ("__limit__", vs) :: ps2) =
        buildSelectQuery up path (ps1 ++ ps2)) ∧
    (∀ (up path : String) (ps1 ps2 : List (String × List String)) (vs : List String),
      atoi (first vs) = none →
      buildSelectQuery up path (ps1 ++ ("__offset__", vs) :: ps2) =
        buildSelectQuery up path (ps1 ++ ps2)) ∧
    (∀ (up path : String) (values : List (String × Scalar))
      (ps1 ps2 : List (String × List String)) (vs : List String),
      atoi (first vs) = none →
      buildUpdateQuery up path values (ps1 ++ ("__limit__", vs) :: ps2) =
        buildUpdateQuery up path values (ps1 ++ ps2)) ∧
    (∀ (up path : String) (ps1 ps2 : List (String × List String)) (vs : List String),
      atoi (first vs) = none →
      buildDeleteQuery up path (ps1 ++ ("__limit__", vs) :: ps2) =
        buildDeleteQuery up path (ps1 ++ ps2)) ∧
    (∀ (up path : String) (ps : List (String × List String)),
      ∃ r, buildSelectQuery up path ps = .ok r) ∧
    (∀ (st : DeleteState) (vs : List String) (ps : List (String × List String)),
      applyDeleteParams st (("__offset__", vs) :: ps) =
        applyDeleteParams { st with wheres := st.wheres ++ [.eqList "__offset__" vs] } ps) := by
  refine ⟨by decide, ?_, ?_, fun m => rfl, fun m => rfl, ?_, ?_, ?_, ?_, ?_, ?_⟩
  · intro up path ps1 ps2 vs n hn hnn hps2
    rw [selectStateOf, applySelectParams_append,
      applySelectParams_limit_parse vs ps2 _ n hn,
      applySelectParams_limit_invariant ps2 _ hps2]
    have hrange := atoi_range _ _ hn
    rw [toUInt64Nat_of_nonneg n hnn (by omega)]
  · intro up path ps1 ps2 vs n hn hnn hps2
    rw [selectStateOf, applySelectParams_append,
      applySelectParams_offset_parse vs ps2 _ n hn,
      applySelectParams_offset_invariant ps2 _ hps2]
    have hrange := atoi_range _ _ hn
    rw [toUInt64Nat_of_nonneg n hnn (by omega)]
  · intro up path ps1 ps2 vs hnone
    rw [buildSelectQuery, buildSelectQuery, selectStateOf, selectStateOf,
      applySelectParams_append, applySelectParams_append,
      applySelectParams_limit_skip vs ps2 _ hnone]
  · intro up path ps1 ps2 vs hnone
    rw [buildSelectQuery, buildSelectQuery, selectStateOf, selectStateOf,
      applySelectParams_append, applySelectParams_append,
      applySelectParams_offset_skip vs ps2 _ hnone]
  · intro up path values ps1 ps2 vs hnone
    rw [buildUpdateQuery, buildUpdateQuery, updateStateOf, updateStateOf,
      applyUpdateParams_append, applyUpdateParams_append,
      applyUpdateParams_limit_skip vs ps2 _ hnone]
  · intro up path ps1 ps2 vs hnone
    rw [buildDeleteQuery, buildDeleteQuery, deleteStateOf, deleteStateOf,
      applyDeleteParams_append, applyDeleteParams_append,
      applyDeleteParams_limit_skip vs ps2 _ hnone]
  · intro up path ps
    exact ⟨_, rfl⟩
  · intro st vs ps
    exact applyDeleteParams_offset_filter vs ps st

/-- C7 witness: the amended theorem instantiated at `__limit__=100`,
`__offset__=200`, and the unparseable `__limit__=abc` on all three
compiles. -/
theorem c7_limit_offset_witness :
    (selectStateOf "/" "/user" ([] ++ ("__limit__", ["100"]) :: [])).limit = some 100 ∧
    (selectStateOf "/" "/user" ([] ++ ("__offset__", ["200"]) :: [])).offset = some 200 ∧
    buildSelectQuery "/" "/user" ([] ++ ("__limit__", ["abc"]) :: []) =
      buildSelectQuery "/" "/user" ([] ++ []) ∧
    buildUpdateQuery "/" "/user" [("name", .str "jack")] ([] ++ ("__limit__", ["abc"]) :: []) =
      buildUpdateQuery "/" "/user" [("name", .str "jack")] ([] ++ []) ∧
    buildDeleteQuery "/" "/user" ([] ++ ("__limit__", ["abc"]) :: []) =
      buildDeleteQuery "/" "/user" ([] ++ []) := by
  refine ⟨?_, ?_, ?_, ?_, ?_⟩
  · exact c7_limit_offset.2.1 "/" "/user" [] [] ["100"] 100 (by decide) (by decide)
      (by intro kv hkv; simp at hkv)
  · exact c7_limit_offset.2.2.1 "/" "/user" [] [] ["200"] 200 (by decide) (by decide)
      (by intro kv hkv; simp at hkv)
  · exact c7_limit_offset.2.2.2.2.2.1 "/" "/user" [] [] ["abc"] (by decide)
  · exact c7_limit_offset.2.2.2.2.2.2.2.1 "/" "/user" [("name", .str "jack")] [] [] ["abc"]
      (by decide)
  · exact c7_limit_offset.2.2.2.2.2.2.2.2.1 "/" "/user" [] [] ["abc"] (by decide)

/-- C5: the positional argument list of a compiled update matches the order
in which placeholders appear in the emitted SQL: the SQL is the SET fragment
followed by the WHERE fragment, the arguments are the SET values followed by
the WHERE arguments, and the total placeholder count equals the argument
count (given that the table and column names contain no `?`).  In particular
`PUT /user/8` with body `{"name":"jack"}` compiles to
`UPDATE user SET name = ? WHERE id = ?` with arguments `["jack","8"]`. -/
theorem c5_update_arg_order :
    (buildUpdateQuery "/" "/user/8" [("name", .str "jack")] [] =
      .ok ("UPDATE user SET name = ? WHERE id = ?", [.str "jack", .str "8"])) ∧
    (∀ (up path : String) (values : List (String × Scalar))
      (params : List (String × List String)) (sql : String) (args : List Scalar),
      buildUpdateQuery up path values params = .ok (sql, args) →
      countQ (updateStateOf up path values params).table = 0 →
      (∀ kv ∈ values, countQ kv.1 = 0) →
      (∀ w ∈ (updateStateOf up path values params).wheres, countQ (predKey w) = 0) →
      sql = "UPDATE " ++ (updateStateOf up path values params).table ++ " SET " ++
        setSql values ++ whereSql (updateStateOf up path values params).wheres ++
        limitSql (updateStateOf up path values params).limit ∧
      args = values.map (·.2) ++ whereArgsOf (updateStateOf up path values params).wheres ∧
      countQ sql = args.length) := by
  constructor
  · decide
  · intro up path values params sql args h htab hvals hwh
    rw [buildUpdateQuery, updateToSql] at h
    have hsets : (updateStateOf up path values params).sets = values := by
      rw [updateStateOf, applyUpdateParams_sets]
    rw [hsets] at h
    split_ifs at h with h1 h2
    injection h with h
    rw [Prod.mk.injEq] at h
    obtain ⟨hsql, hargs⟩ := h
    refine ⟨hsql.symm, hargs.symm, ?_⟩
    rw [← hsql, ← hargs]
    rw [countQ_append, countQ_append, countQ_append, countQ_append, countQ_append]
    rw [countQ_setSql values hvals, countQ_whereSql _ hwh, countQ_limitSql, htab]
    have hu : countQ "UPDATE " = 0 := by decide
    have hst : countQ " SET " = 0 := by decide
    rw [hu, hst]
    simp

/-- C5 witness: the general clause instantiated at the spotlight request
`PUT /user/8` with body `{"name":"jack"}`. -/
theorem c5_update_arg_order_witness :
    "UPDATE user SET name = ? WHERE id = ?" =
      "UPDATE " ++ (updateStateOf "/" "/user/8" [("name", .str "jack")] []).table ++
        " SET " ++ setSql [("name", .str "jack")] ++
        whereSql (updateStateOf "/" "/user/8" [("name", .str "jack")] []).wheres ++
        limitSql (updateStateOf "/" "/user/8" [("name", .str "jack")] []).limit ∧
    countQ "UPDATE user SET name = ? WHERE id = ?" =
      [Scalar.str "jack", Scalar.str "8"].length := by
  have h := c5_update_arg_order.2 "/" "/user/8" [("name", .str "jack")] []
    "UPDATE user SET name = ? WHERE id = ?" [.str "jack", .str "8"]
    (by decide) (by decide) (by decide) (by decide)
  exact ⟨h.1, h.2.2⟩

/-- The three-item batch of the claim scenario: items 0 and 2 are good, item
1 is the malformed one. -/
def listC1 : List JSON :=
  [.obj [("a", .str "1")], .obj [("bad", .null)], .obj [("c", .str "3")]]

/-- Per-item `createSingle` outcomes for the scenario: item 1 fails. -/
def resC1 : Nat → Except String Item := fun i =>
  if i = 0 then .ok [("a", .str "1"), ("id", .int 1)]
  else if i = 1 then .error "malformed"
  else .ok [("c", .str "3"), ("id", .int 3)]

/-- C1 counterexample: in the newest revision the claim is false — `create`
(src/unnamed/part_002 lines 763-787) has no array branch, so the batch POST
of the claim's own scenario (three objects, one of which would fail) returns
`BadRequest(nil)` (HTTP 400) with no payload at all, not a plain array and
not an `errors`/`objects` object; no per-item insert is even attempted. -/
theorem c1_counterexample :
    create (.ok (.arr listC1)) (.ok []) = .error (BadRequest none) ∧
    (BadRequest none).code = 400 := ⟨rfl, rfl⟩

/-- C1 (amended): the newest `create` rejects any JSON-array body as
BadRequest; in the earlier revision that implements batch create
(src/unnamed/part_001 `createMany`/`create`), for a POST of `n` item objects
the coordinator completes for every completion order, a failure of item `i`
does not prevent any other item from succeeding (each item's outcome depends
only on its own result), the successes and the per-item errors together
account for all `n` items, and the payload is the plain array of created
rows when no item failed and an `errors`/`objects` object otherwise — as in
the 3-item/1-malformed scenario, which yields the one error and exactly the
two successful rows regardless of completion order. -/
theorem c1_batch_create :
    (∀ (list : List JSON) (res : Nat → Except String Item) (order : List Nat),
      (∀ x ∈ list, x.isObj = true) → order.Perm (List.range list.length) →
      createMany list res order = some (okResults res order, errResults res order) ∧
      (okResults res order).length + (errResults res order).length = list.length ∧
      (∀ i r, i ∈ order → res i = .ok r → r ∈ okResults res order) ∧
      (∀ i e, i ∈ order → res i = .error e → e ∈ errResults res order) ∧
      (∀ singleRes, createV1 (.ok (.arr list)) res order singleRes =
        some (.ok (if (errResults res order).length = 0
          then .rows (okResults res order)
          else .withErrors (errResults res order) (okResults res order))))) ∧
    (∀ (order : List Nat) (singleRes : Except String Item),
      order.Perm (List.range 3) →
      errResults resC1 order = ["malformed"] ∧
      (okResults resC1 order).length = 2 ∧
      [("a", Scalar.str "1"), ("id", Scalar.int 1)] ∈ okResults resC1 order ∧
      [("c", Scalar.str "3"), ("id", Scalar.int 3)] ∈ okResults resC1 order ∧
      createV1 (.ok (.arr listC1)) resC1 order singleRes =
        some (.ok (.withErrors ["malformed"] (okResults resC1 order)))) := by
  have hmany : ∀ (list : List JSON) (res : Nat → Except String Item) (order : List Nat),
      (∀ x ∈ list, x.isObj = true) →
      createMany list res order = some (okResults res order, errResults res order) := by
    intro list res order h
    rw [createMany, if_pos (List.all_eq_true.2 h), createMany_fold_spec]
    simp
  have hv1 : ∀ (list : List JSON) (res : Nat → Except String Item) (order : List Nat)
      (singleRes : Except String Item), (∀ x ∈ list, x.isObj = true) →
      createV1 (.ok (.arr list)) res order singleRes =
        some (.ok (if (errResults res order).length = 0
          then .rows (okResults res order)
          else .withErrors (errResults res order) (okResults res order))) := by
    intro list res order singleRes h
    show (match createMany list res order with
      | none => (none : Option (Except SqldError CreatePayload))
      | some (manySaved, errs) =>
        if errs.length = 0 then some (.ok (.rows manySaved))
        else some (.ok (.withErrors errs manySaved))) = _
    rw [hmany list res order h]
    dsimp only
    by_cases hz : (errResults res order).length = 0
    · rw [if_pos hz, if_pos hz]
    · rw [if_neg hz, if_neg hz]
  constructor
  · intro list res order hobj hperm
    refine ⟨hmany list res order hobj, ?_, ?_, ?_,
      fun singleRes => hv1 list res order singleRes hobj⟩
    · rw [okResults_length_add res order, hperm.length_eq, List.length_range]
    · intro i r hi hr
      exact List.mem_filterMap.2 ⟨i, hi, by rw [hr]; rfl⟩
    · intro i e hi he
      exact List.mem_filterMap.2 ⟨i, hi, by rw [he]⟩
  · intro order singleRes hperm
    have herr : errResults resC1 order = ["malformed"] := by
      have hp : (errResults resC1 order).Perm (errResults resC1 (List.range 3)) :=
        hperm.filterMap _
      have hbase : errResults resC1 (List.range 3) = ["malformed"] := by decide
      rw [hbase] at hp
      exact List.perm_singleton.1 hp
    have hlen : (okResults resC1 order).length = 2 := by
      have h3 := okResults_length_add resC1 order
      rw [herr, hperm.length_eq, List.length_range] at h3
      simp at h3
      omega
    have hobj : ∀ x ∈ listC1, x.isObj = true := by decide
    refine ⟨herr, hlen, ?_, ?_, ?_⟩
    · refine List.mem_filterMap.2 ⟨0, ?_, rfl⟩
      exact hperm.mem_iff.2 (by decide)
    · refine List.mem_filterMap.2 ⟨2, ?_, rfl⟩
      exact hperm.mem_iff.2 (by decide)
    · rw [hv1 listC1 resC1 order singleRes hobj, herr]
      rfl

/-- C1 witness: the amended theorem instantiated at the scenario batch with
the completion order `[2, 0, 1]`. -/
theorem c1_batch_create_witness :
    errResults resC1 [2, 0, 1] = ["malformed"] ∧
    (okResults resC1 [2, 0, 1]).length = 2 ∧
    createV1 (.ok (.arr listC1)) resC1 [2, 0, 1] (.ok []) =
      some (.ok (.withErrors ["malformed"] (okResults resC1 [2, 0, 1]))) := by
  have h := c1_batch_create.2 [2, 0, 1] (.ok []) (by decide)
  exact ⟨h.1, h.2.1, h.2.2.2.2⟩

end Sqld
